import Mathlib

/-!
Shallow embedding of the dynamic_settings repository
(src/dynamic_settings/repository/db_async_settings_repository/db_async_settings_repository.py).

The repository persists named, typed configuration values as `Setting`
records and converts between native runtime values and their storage
representation through an ordered list of `DTypeConverter` objects.
The backing store is modelled as a list of `Setting` records; the
session operations named by the external session interface
(filtered query, unfiltered query, merge/upsert by name, delete matched
set, commit) are embedded as pure functions on that list.  Write
operations additionally produce a trace of session events so that
ordering facts (conversion before session acquisition, a single commit,
delete before the merges) are observable.
-/

/-- A runtime value of the host language: the id of its runtime class
(`classId`), the ids of every class it is an instance of (its class and
all ancestors, so the is-instance test is polymorphic), and an opaque
payload standing for the actual data. -/
structure PyValue where
  classId : Nat
  ancestors : List Nat
  payload : String
deriving DecidableEq, Repr

/-- The is-instance test used by `_convert_one_setting_to_db_format`:
a value matches a type descriptor exactly when that descriptor is among
the classes the value is an instance of.  A subclass value carries its
superclass ids in `ancestors`, so it matches a converter registered for
the superclass. -/
def isInstance (v : PyValue) (t : Nat) : Bool :=
  v.ancestors.contains t

/-- A persisted record, from setting_model.Setting: a unique `name`,
a storage `type` tag naming the converter, and the encoded `value`. -/
structure Setting where
  name : String
  type : String
  value : String
deriving DecidableEq, Repr

/-- A DTypeConverter: storage tag `TYPE_NAME`, the native type descriptor
`PYTHON_TYPE` it accepts, and the two conversion functions. -/
structure DTypeConverter where
  TYPE_NAME : String
  PYTHON_TYPE : Nat
  to_db_format : PyValue → String
  to_python_type : String → PyValue

/-- The error taxonomy of the specification.  The source raises
RuntimeError for the two converter lookup failures and lets the result
object raise for the zero-rows and many-rows cases of `one()`; here the
four conditions are distinct constructors, each carrying the unmatched
tag, runtime type or name. -/
inductive RepoError where
  | converterNotFoundTag : String → RepoError
  | converterNotFoundType : Nat → RepoError
  | notFound : String → RepoError
  | integrityViolation : String → RepoError
deriving DecidableEq, Repr

/-- `_convert_one_setting_to_python_type`: linear scan of the converter
list in registration order; the first converter whose `TYPE_NAME` equals
the record tag decodes the stored value; if the scan falls through, the
error carries the unmatched tag. -/
def _convert_one_setting_to_python_type (convs : List DTypeConverter) (setting : Setting) :
    Except RepoError PyValue :=
  match convs with
  | [] => Except.error (RepoError.converterNotFoundTag setting.type)
  | converter :: rest =>
    if converter.TYPE_NAME = setting.type then
      Except.ok (converter.to_python_type setting.value)
    else
      _convert_one_setting_to_python_type rest setting

/-- `_convert_one_setting_to_db_format`: linear scan in registration
order; the first converter whose `PYTHON_TYPE` the value is an instance
of encodes it into a `Setting` record; if the scan falls through, the
error carries the runtime class of the value. -/
def _convert_one_setting_to_db_format (convs : List DTypeConverter) (setting_name : String)
    (setting_value : PyValue) : Except RepoError Setting :=
  match convs with
  | [] => Except.error (RepoError.converterNotFoundType setting_value.classId)
  | converter :: rest =>
    if isInstance setting_value converter.PYTHON_TYPE then
      Except.ok (Setting.mk setting_name converter.TYPE_NAME (converter.to_db_format setting_value))
    else
      _convert_one_setting_to_db_format rest setting_name setting_value

/-- Assignment `d[k] = v` on an insertion-ordered dictionary modelled as
an association list: an existing key keeps its position and gets the new
value, a fresh key is appended at the end. -/
def dictInsert : List (String × PyValue) → String → PyValue → List (String × PyValue)
  | [], k, v => [(k, v)]
  | (k₂, v₂) :: rest, k, v =>
    if k₂ = k then (k, v) :: rest else (k₂, v₂) :: dictInsert rest k v

/-- Dictionary lookup on the association-list model. -/
def dictLookup : List (String × PyValue) → String → Option PyValue
  | [], _ => none
  | (k₂, v) :: rest, k => if k₂ = k then some v else dictLookup rest k

/-- The loop body of `_convert_settings_to_python_types`: records are
decoded one by one and written into the accumulating dictionary under
their name, so a later record with an already seen name overwrites the
earlier entry; the first record that fails to decode aborts the whole
loop with its error. -/
def convertLoop (convs : List DTypeConverter) :
    List Setting → List (String × PyValue) → Except RepoError (List (String × PyValue))
  | [], acc => Except.ok acc
  | setting :: rest, acc =>
    match _convert_one_setting_to_python_type convs setting with
    | Except.error e => Except.error e
    | Except.ok v => convertLoop convs rest (dictInsert acc setting.name v)

/-- `_convert_settings_to_python_types`: decode a batch of records into
a name-to-value dictionary, starting from the empty dictionary. -/
def _convert_settings_to_python_types (convs : List DTypeConverter) (settings : List Setting) :
    Except RepoError (List (String × PyValue)) :=
  convertLoop convs settings []

/-- `_convert_settings_to_db_format`: encode each entry of the input
dictionary in iteration order, collecting the records in a list; the
first entry that fails to encode aborts the whole batch with its error. -/
def _convert_settings_to_db_format (convs : List DTypeConverter) :
    List (String × PyValue) → Except RepoError (List Setting)
  | [] => Except.ok []
  | (n, v) :: rest =>
    match _convert_one_setting_to_db_format convs n v with
    | Except.error e => Except.error e
    | Except.ok s =>
      match _convert_settings_to_db_format convs rest with
      | Except.error e => Except.error e
      | Except.ok l => Except.ok (s :: l)

/-- The `.scalars().one()` call of `get_one`: exactly one row is
required; zero rows raise the not-found condition and two or more rows
raise the integrity-violation condition, both carrying the queried
name. -/
def scalars_one (setting_name : String) : List Setting → Except RepoError Setting
  | [] => Except.error (RepoError.notFound setting_name)
  | [s] => Except.ok s
  | _ :: _ :: _ => Except.error (RepoError.integrityViolation setting_name)

/-- `get_one`: filtered query for the records whose name equals the key,
exactly-one extraction, then decoding of the single record. -/
def get_one (convs : List DTypeConverter) (store : List Setting) (setting_name : String) :
    Except RepoError PyValue :=
  match scalars_one setting_name (store.filter (fun s => s.name = setting_name)) with
  | Except.error e => Except.error e
  | Except.ok setting => _convert_one_setting_to_python_type convs setting

/-- `get_many`: filtered query for the records whose name is among the
requested names, then batch decoding into a dictionary. -/
def get_many (convs : List DTypeConverter) (store : List Setting) (setting_names : List String) :
    Except RepoError (List (String × PyValue)) :=
  _convert_settings_to_python_types convs (store.filter (fun s => setting_names.contains s.name))

/-- `get_all`: unfiltered query for every record, then batch decoding
into a dictionary. -/
def get_all (convs : List DTypeConverter) (store : List Setting) :
    Except RepoError (List (String × PyValue)) :=
  _convert_settings_to_python_types convs store

/-- Observable session events of the write operations. -/
inductive Event where
  | sessionAcquired
  | merged : Setting → Event
  | deletedAll
  | committed
  | sessionReleased
deriving DecidableEq, Repr

/-- `session.merge`: upsert by the primary key `name` — an existing
record with the same name is overwritten in place, otherwise the record
is inserted at the end. -/
def mergeSetting (store : List Setting) (s : Setting) : List Setting :=
  if store.any (fun t => t.name = s.name) then
    store.map (fun t => if t.name = s.name then s else t)
  else
    store ++ [s]

/-- `set_one`: encode the value first; only if encoding succeeded is a
session acquired, the record merged and the transaction committed.  The
result pairs the session-event trace with the new store state (or the
conversion error). -/
def set_one (convs : List DTypeConverter) (store : List Setting) (setting_name : String)
    (setting_value : PyValue) : List Event × Except RepoError (List Setting) :=
  match _convert_one_setting_to_db_format convs setting_name setting_value with
  | Except.error e => ([], Except.error e)
  | Except.ok s =>
    ([Event.sessionAcquired, Event.merged s, Event.committed, Event.sessionReleased],
     Except.ok (mergeSetting store s))

/-- `set_many`: encode the whole batch first; only if every entry
encoded is a session acquired, each record merged in order and the
transaction committed once. -/
def set_many (convs : List DTypeConverter) (store : List Setting)
    (settings : List (String × PyValue)) : List Event × Except RepoError (List Setting) :=
  match _convert_settings_to_db_format convs settings with
  | Except.error e => ([], Except.error e)
  | Except.ok converted =>
    (Event.sessionAcquired ::
       (converted.map Event.merged ++ [Event.committed, Event.sessionReleased]),
     Except.ok (converted.foldl mergeSetting store))

/-- `set_all`: encode the whole batch first; only if every entry encoded
is a session acquired, every existing record deleted, each encoded
record merged in order and the transaction committed once. -/
def set_all (convs : List DTypeConverter) (store : List Setting)
    (settings : List (String × PyValue)) : List Event × Except RepoError (List Setting) :=
  match _convert_settings_to_db_format convs settings with
  | Except.error e => ([], Except.error e)
  | Except.ok converted =>
    (Event.sessionAcquired :: Event.deletedAll ::
       (converted.map Event.merged ++ [Event.committed, Event.sessionReleased]),
     Except.ok (converted.foldl mergeSetting []))

/-! ### Heap model for the defensive copy of the converter list

The source stores `dtype_converters.copy()` rather than the caller-held
list object itself.  To make that observable, list objects live on an
explicit heap of list cells addressed by natural numbers, the caller
passes a cell address, and mutation of a cell is heap update. -/

abbrev ConvHeap := List (List DTypeConverter)

/-- Contents of the list object at address `r` (empty for a dangling
address). -/
def heapGet (h : ConvHeap) (r : Nat) : List DTypeConverter :=
  h.getD r []

/-- In-place replacement of the contents of the list object at `r`,
modelling mutation of the list through the caller-held reference. -/
def heapSet (h : ConvHeap) (r : Nat) (l : List DTypeConverter) : ConvHeap :=
  h.set r l

/-- The repository state relevant to converter registration: the heap of
list objects and the address held in the `_dtype_converters` attribute. -/
structure RepoState where
  heap : ConvHeap
  dtype_converters : Nat

/-- `list.copy()` on the object at `r`: allocate a fresh cell holding
the same elements and return the new heap and the fresh address. -/
def list_copy (h : ConvHeap) (r : Nat) : ConvHeap × Nat :=
  (h ++ [heapGet h r], h.length)

/-- `set_dtype_converters`: the attribute is set to a defensive copy of
the caller-supplied list object. -/
def set_dtype_converters (st : RepoState) (r : Nat) : RepoState :=
  RepoState.mk (list_copy st.heap r).1 (list_copy st.heap r).2

/-- The converter list the repository operations read: the contents of
the cell held in the `_dtype_converters` attribute. -/
def activeConverters (st : RepoState) : List DTypeConverter :=
  heapGet st.heap st.dtype_converters

/-- Mutation (for example append, remove or wholesale assignment of the
elements) performed by the caller on the list object at `r`. -/
def mutateList (st : RepoState) (r : Nat) (l : List DTypeConverter) : RepoState :=
  RepoState.mk (heapSet st.heap r l) st.dtype_converters

/-! ### Example converters and values used by the concrete witnesses -/

/-- Class ids of the example runtime classes: 1 stands for the integer
class, 2 for the string class and 3 for the boolean class, which in the
host language is a subclass of the integer class. -/
def intClassId : Nat := 1

def strClassId : Nat := 2

def boolClassId : Nat := 3

/-- Example converter registered for the integer class. -/
def intConverter : DTypeConverter :=
  DTypeConverter.mk "int" intClassId (fun v => v.payload) (fun s => PyValue.mk intClassId [intClassId] s)

/-- Example converter registered for the string class. -/
def strConverter : DTypeConverter :=
  DTypeConverter.mk "str" strClassId (fun v => v.payload) (fun s => PyValue.mk strClassId [strClassId] s)

/-- A second converter also registered for the integer class but with a
different tag, to exercise registration-order precedence. -/
def intConverter₂ : DTypeConverter :=
  DTypeConverter.mk "int2" intClassId (fun v => v.payload) (fun s => PyValue.mk intClassId [intClassId] s)

/-- A converter with the same storage tag as `intConverter` but a
different decoding, to exercise registration-order precedence on the
decode side. -/
def intShadowConverter : DTypeConverter :=
  DTypeConverter.mk "int" intClassId (fun v => v.payload)
    (fun _ => PyValue.mk strClassId [strClassId] "shadow")

/-- An integer runtime value with the given payload. -/
def intValue (payload : String) : PyValue :=
  PyValue.mk intClassId [intClassId] payload

/-- A string runtime value with the given payload. -/
def strValue (payload : String) : PyValue :=
  PyValue.mk strClassId [strClassId] payload

/-- A boolean runtime value: an instance of the boolean class and, the
boolean class being a subclass of the integer class, of the integer
class as well. -/
def boolValue : PyValue :=
  PyValue.mk boolClassId [boolClassId, intClassId] "True"

/-- Decidable equality of results, so concrete runs of the operations
can be checked by evaluation. -/
instance {ε α : Type} [DecidableEq ε] [DecidableEq α] : DecidableEq (Except ε α) := fun a b =>
  match a, b with
  | Except.error e₁, Except.error e₂ =>
    if h : e₁ = e₂ then isTrue (by rw [h]) else isFalse (fun hc => by cases hc; exact h rfl)
  | Except.error _, Except.ok _ => isFalse (fun hc => by cases hc)
  | Except.ok _, Except.error _ => isFalse (fun hc => by cases hc)
  | Except.ok a₁, Except.ok a₂ =>
    if h : a₁ = a₂ then isTrue (by rw [h]) else isFalse (fun hc => by cases hc; exact h rfl)

/-! ### Dictionary lemmas -/

lemma getLast?_mem_list {α : Type} (l : List α) (a : α) (h : l.getLast? = some a) : a ∈ l := by
  obtain ⟨hne, heq⟩ :=
    List.mem_getLast?_eq_getLast (x := a) (by rw [h]; exact Option.mem_some_iff.mpr rfl)
  rw [heq]
  exact List.getLast_mem hne

lemma toOption_eq_some {ε α : Type} (x : Except ε α) (a : α) (h : x.toOption = some a) :
    x = Except.ok a := by
  cases x with
  | error e => simp [Except.toOption] at h
  | ok b =>
    simp [Except.toOption] at h
    rw [h]

lemma dictLookup_dictInsert_self (d : List (String × PyValue)) (k : String) (v : PyValue) :
    dictLookup (dictInsert d k v) k = some v := by
  induction d with
  | nil => simp [dictInsert, dictLookup]
  | cons p rest ih =>
    obtain ⟨k₂, v₂⟩ := p
    by_cases h : k₂ = k
    · simp [dictInsert, dictLookup, h]
    · simp [dictInsert, dictLookup, h, ih]

lemma dictLookup_dictInsert_other (d : List (String × PyValue)) (k k₂ : String) (v : PyValue)
    (h : k₂ ≠ k) : dictLookup (dictInsert d k v) k₂ = dictLookup d k₂ := by
  induction d with
  | nil => simp [dictInsert, dictLookup, Ne.symm h]
  | cons p rest ih =>
    obtain ⟨k₃, v₃⟩ := p
    by_cases h₃ : k₃ = k
    · subst h₃
      simp [dictInsert, dictLookup, Ne.symm h]
    · simp [dictInsert, dictLookup, h₃, ih]

lemma keys_dictInsert (d : List (String × PyValue)) (k : String) (v : PyValue) :
    (dictInsert d k v).map Prod.fst =
      if k ∈ d.map Prod.fst then d.map Prod.fst else d.map Prod.fst ++ [k] := by
  induction d with
  | nil => simp [dictInsert]
  | cons p rest ih =>
    obtain ⟨k₂, v₂⟩ := p
    by_cases h : k₂ = k
    · simp [dictInsert, h]
    · by_cases hmem : k ∈ rest.map Prod.fst <;>
        simp [dictInsert, h, ih, hmem, Ne.symm h]

lemma keys_dictInsert_nodup (d : List (String × PyValue)) (k : String) (v : PyValue)
    (h : (d.map Prod.fst).Nodup) : ((dictInsert d k v).map Prod.fst).Nodup := by
  rw [keys_dictInsert]
  by_cases hmem : k ∈ d.map Prod.fst
  · simpa [hmem] using h
  · rw [if_neg hmem, List.nodup_append]
    exact ⟨h, List.nodup_singleton k, by simpa [List.disjoint_singleton] using hmem⟩

lemma exists_mem_iff_mem_keys (d : List (String × PyValue)) (k : String) :
    (∃ w, (k, w) ∈ d) ↔ k ∈ d.map Prod.fst := by
  constructor
  · rintro ⟨w, hw⟩
    exact List.mem_map.mpr ⟨(k, w), hw, rfl⟩
  · intro h
    obtain ⟨⟨ka, wa⟩, hin, hk⟩ := List.mem_map.mp h
    exact ⟨wa, by simpa [← hk] using hin⟩

lemma mem_key_dictInsert (d : List (String × PyValue)) (k k₂ : String) (v : PyValue) :
    (∃ w, (k₂, w) ∈ dictInsert d k v) ↔ (∃ w, (k₂, w) ∈ d) ∨ k₂ = k := by
  rw [exists_mem_iff_mem_keys, exists_mem_iff_mem_keys, keys_dictInsert]
  by_cases hmem : k ∈ d.map Prod.fst
  · rw [if_pos hmem]
    constructor
    · exact Or.inl
    · rintro (h | rfl)
      · exact h
      · exact hmem
  · rw [if_neg hmem]
    simp

lemma dictLookup_mem (d : List (String × PyValue)) (k : String) (v : PyValue)
    (h : dictLookup d k = some v) : (k, v) ∈ d := by
  induction d with
  | nil => simp [dictLookup] at h
  | cons p rest ih =>
    obtain ⟨k₂, v₂⟩ := p
    by_cases h₂ : k₂ = k
    · subst h₂
      simp [dictLookup] at h
      simp [h]
    · simp [dictLookup, h₂] at h
      exact List.mem_cons.mpr (Or.inr (ih h))

lemma mem_dictLookup (d : List (String × PyValue)) (k : String) (v : PyValue)
    (hnd : (d.map Prod.fst).Nodup) (h : (k, v) ∈ d) : dictLookup d k = some v := by
  induction d with
  | nil => simp at h
  | cons p rest ih =>
    obtain ⟨k₂, v₂⟩ := p
    simp only [List.map_cons, List.nodup_cons] at hnd
    rcases List.mem_cons.mp h with h₁ | h₁
    · rcases Prod.mk.injEq .. ▸ h₁ with ⟨rfl, rfl⟩
      simp [dictLookup]
    · have hk : k₂ ≠ k := by
        rintro rfl
        exact hnd.1 (List.mem_map.mpr ⟨(k₂, v), h₁, rfl⟩)
      simp [dictLookup, hk, ih hnd.2 h₁]

/-! ### Single-record conversion lemmas -/

lemma dec1_not_found (convs : List DTypeConverter) (s : Setting)
    (h : ∀ c ∈ convs, c.TYPE_NAME ≠ s.type) :
    _convert_one_setting_to_python_type convs s =
      Except.error (RepoError.converterNotFoundTag s.type) := by
  induction convs with
  | nil => rfl
  | cons c rest ih =>
    have hc : c.TYPE_NAME ≠ s.type := h c (by simp)
    simp only [_convert_one_setting_to_python_type, if_neg hc]
    exact ih (fun c₂ hc₂ => h c₂ (by simp [hc₂]))

lemma dec1_ok (convs : List DTypeConverter) (s : Setting)
    (h : ∃ c ∈ convs, c.TYPE_NAME = s.type) :
    ∃ v, _convert_one_setting_to_python_type convs s = Except.ok v := by
  induction convs with
  | nil => simp at h
  | cons c rest ih =>
    by_cases hc : c.TYPE_NAME = s.type
    · exact ⟨c.to_python_type s.value, by simp [_convert_one_setting_to_python_type, hc]⟩
    · obtain ⟨c₂, hc₂, hct⟩ := h
      rcases List.mem_cons.mp hc₂ with rfl | h₂
      · exact absurd hct hc
      · obtain ⟨v, hv⟩ := ih ⟨c₂, h₂, hct⟩
        exact ⟨v, by simp [_convert_one_setting_to_python_type, hc, hv]⟩

lemma dec1_select (pre post : List DTypeConverter) (c : DTypeConverter) (s : Setting)
    (hpre : ∀ c₂ ∈ pre, c₂.TYPE_NAME ≠ s.type) (hc : c.TYPE_NAME = s.type) :
    _convert_one_setting_to_python_type (pre ++ c :: post) s =
      Except.ok (c.to_python_type s.value) := by
  induction pre with
  | nil => simp [_convert_one_setting_to_python_type, hc]
  | cons c₂ rest ih =>
    have h₂ : c₂.TYPE_NAME ≠ s.type := hpre c₂ (by simp)
    simp only [List.cons_append, _convert_one_setting_to_python_type, if_neg h₂]
    exact ih (fun c₃ h₃ => hpre c₃ (by simp [h₃]))

lemma enc1_not_found (convs : List DTypeConverter) (setting_name : String) (v : PyValue)
    (h : ∀ c ∈ convs, isInstance v c.PYTHON_TYPE = false) :
    _convert_one_setting_to_db_format convs setting_name v =
      Except.error (RepoError.converterNotFoundType v.classId) := by
  induction convs with
  | nil => rfl
  | cons c rest ih =>
    have hc : isInstance v c.PYTHON_TYPE = false := h c (by simp)
    simp only [_convert_one_setting_to_db_format, hc, Bool.false_eq_true, if_false]
    exact ih (fun c₂ hc₂ => h c₂ (by simp [hc₂]))

lemma enc1_ok (convs : List DTypeConverter) (setting_name : String) (v : PyValue)
    (h : ∃ c ∈ convs, isInstance v c.PYTHON_TYPE = true) :
    ∃ s, _convert_one_setting_to_db_format convs setting_name v = Except.ok s := by
  induction convs with
  | nil => simp at h
  | cons c rest ih =>
    by_cases hc : isInstance v c.PYTHON_TYPE = true
    · exact ⟨Setting.mk setting_name c.TYPE_NAME (c.to_db_format v),
        by simp [_convert_one_setting_to_db_format, hc]⟩
    · obtain ⟨c₂, hc₂, hct⟩ := h
      rcases List.mem_cons.mp hc₂ with rfl | h₂
      · exact absurd hct hc
      · obtain ⟨s, hs⟩ := ih ⟨c₂, h₂, hct⟩
        exact ⟨s, by simp [_convert_one_setting_to_db_format, hc, hs]⟩

lemma enc1_select (pre post : List DTypeConverter) (c : DTypeConverter)
    (setting_name : String) (v : PyValue)
    (hpre : ∀ c₂ ∈ pre, isInstance v c₂.PYTHON_TYPE = false)
    (hc : isInstance v c.PYTHON_TYPE = true) :
    _convert_one_setting_to_db_format (pre ++ c :: post) setting_name v =
      Except.ok (Setting.mk setting_name c.TYPE_NAME (c.to_db_format v)) := by
  induction pre with
  | nil => simp [_convert_one_setting_to_db_format, hc]
  | cons c₂ rest ih =>
    have h₂ : isInstance v c₂.PYTHON_TYPE = false := hpre c₂ (by simp)
    simp only [List.cons_append, _convert_one_setting_to_db_format, h₂,
      Bool.false_eq_true, if_false]
    exact ih (fun c₃ h₃ => hpre c₃ (by simp [h₃]))

lemma enc1_ok_shape (convs : List DTypeConverter) (setting_name : String) (v : PyValue)
    (s : Setting) (h : _convert_one_setting_to_db_format convs setting_name v = Except.ok s) :
    ∃ c ∈ convs, isInstance v c.PYTHON_TYPE = true ∧
      s = Setting.mk setting_name c.TYPE_NAME (c.to_db_format v) := by
  induction convs with
  | nil => simp [_convert_one_setting_to_db_format] at h
  | cons c rest ih =>
    by_cases hc : isInstance v c.PYTHON_TYPE = true
    · simp only [_convert_one_setting_to_db_format, hc, if_true, Except.ok.injEq] at h
      exact ⟨c, by simp, hc, h.symm⟩
    · simp only [_convert_one_setting_to_db_format, hc, if_false] at h
      obtain ⟨c₂, h₂, hct, hsh⟩ := ih h
      exact ⟨c₂, by simp [h₂], hct, hsh⟩

/-! ### Batch conversion lemmas -/

lemma convertLoop_error (convs : List DTypeConverter) :
    ∀ (settings : List Setting) (acc : List (String × PyValue)),
      (∃ s ∈ settings, ∀ c ∈ convs, c.TYPE_NAME ≠ s.type) →
      ∃ tag, convertLoop convs settings acc =
        Except.error (RepoError.converterNotFoundTag tag) := by
  intro settings
  induction settings with
  | nil => intro acc h; simp at h
  | cons s rest ih =>
    intro acc h
    by_cases hs : ∀ c ∈ convs, c.TYPE_NAME ≠ s.type
    · exact ⟨s.type, by simp [convertLoop, dec1_not_found convs s hs]⟩
    · obtain ⟨c, hc, hct⟩ : ∃ c ∈ convs, c.TYPE_NAME = s.type := by
        by_contra hno
        push_neg at hno
        exact hs hno
      obtain ⟨v, hv⟩ := dec1_ok convs s ⟨c, hc, hct⟩
      obtain ⟨q, hq, hqbad⟩ := h
      rcases List.mem_cons.mp hq with rfl | hq₂
      · exact absurd hct (hqbad c hc)
      · obtain ⟨tag, htag⟩ := ih (dictInsert acc s.name v) ⟨q, hq₂, hqbad⟩
        exact ⟨tag, by simp [convertLoop, hv, htag]⟩

lemma convertLoop_ok (convs : List DTypeConverter) :
    ∀ (settings : List Setting) (acc : List (String × PyValue)),
      (∀ s ∈ settings, ∃ c ∈ convs, c.TYPE_NAME = s.type) →
      ∃ d, convertLoop convs settings acc = Except.ok d ∧
        (∀ k, (∃ w, (k, w) ∈ d) ↔ ((∃ w, (k, w) ∈ acc) ∨ ∃ s ∈ settings, s.name = k)) ∧
        (∀ k, dictLookup d k =
          match (settings.filter (fun s => s.name = k)).getLast? with
          | some s => (_convert_one_setting_to_python_type convs s).toOption
          | none => dictLookup acc k) ∧
        ((acc.map Prod.fst).Nodup → (d.map Prod.fst).Nodup) := by
  intro settings
  induction settings with
  | nil =>
    intro acc _
    refine ⟨acc, rfl, ?_, ?_, fun h => h⟩
    · intro k
      simp
    · intro k
      simp
  | cons s rest ih =>
    intro acc h
    obtain ⟨v, hv⟩ := dec1_ok convs s (h s (by simp))
    obtain ⟨d, hd, hmem, hlook, hnd⟩ :=
      ih (dictInsert acc s.name v) (fun t ht => h t (by simp [ht]))
    refine ⟨d, ?_, ?_, ?_, ?_⟩
    · simp [convertLoop, hv, hd]
    · intro k
      rw [hmem k, mem_key_dictInsert]
      constructor
      · rintro ((h₁ | rfl) | ⟨t, ht, rfl⟩)
        · exact Or.inl h₁
        · exact Or.inr ⟨s, by simp⟩
        · exact Or.inr ⟨t, by simp [ht]⟩
      · rintro (h₁ | ⟨t, ht, rfl⟩)
        · exact Or.inl (Or.inl h₁)
        · rcases List.mem_cons.mp ht with rfl | ht₂
          · exact Or.inl (Or.inr rfl)
          · exact Or.inr ⟨t, ht₂, rfl⟩
    · intro k
      rw [hlook k]
      by_cases hk : s.name = k
      · subst hk
        rw [List.filter_cons_of_pos (by simp)]
        cases hfr : rest.filter (fun t => t.name = s.name) with
        | nil =>
          simp [hfr, dictLookup_dictInsert_self, hv, Except.toOption]
        | cons t ts =>
          simp [hfr, List.getLast?_cons]
      · rw [List.filter_cons_of_neg (by simp [hk])]
        cases hfr : (rest.filter (fun t => t.name = k)).getLast? with
        | some t => simp [hfr]
        | none =>
          simp [hfr, dictLookup_dictInsert_other acc s.name k v (Ne.symm hk)]
    · intro hacc
      exact hnd (keys_dictInsert_nodup acc s.name v hacc)

lemma encN_ok (convs : List DTypeConverter) (settings : List (String × PyValue))
    (h : ∀ p ∈ settings, ∃ c ∈ convs, isInstance p.2 c.PYTHON_TYPE = true) :
    ∃ l, _convert_settings_to_db_format convs settings = Except.ok l ∧
      List.Forall₂ (fun p s => _convert_one_setting_to_db_format convs p.1 p.2 = Except.ok s)
        settings l := by
  induction settings with
  | nil => exact ⟨[], rfl, List.Forall₂.nil⟩
  | cons p rest ih =>
    obtain ⟨n, v⟩ := p
    obtain ⟨s, hs⟩ := enc1_ok convs n v (h (n, v) (by simp))
    obtain ⟨l, hl, hf⟩ := ih (fun q hq => h q (by simp [hq]))
    exact ⟨s :: l, by simp [_convert_settings_to_db_format, hs, hl],
      List.Forall₂.cons hs hf⟩

lemma encN_error (convs : List DTypeConverter) (settings : List (String × PyValue))
    (h : ∃ p ∈ settings, ∀ c ∈ convs, isInstance p.2 c.PYTHON_TYPE = false) :
    ∃ ty, _convert_settings_to_db_format convs settings =
      Except.error (RepoError.converterNotFoundType ty) := by
  induction settings with
  | nil => simp at h
  | cons p rest ih =>
    obtain ⟨n, v⟩ := p
    by_cases hp : ∀ c ∈ convs, isInstance v c.PYTHON_TYPE = false
    · exact ⟨v.classId, by simp [_convert_settings_to_db_format, enc1_not_found convs n v hp]⟩
    · obtain ⟨c, hc, hct⟩ : ∃ c ∈ convs, isInstance v c.PYTHON_TYPE = true := by
        by_contra hno
        push_neg at hno
        exact hp (fun c₂ hc₂ => by simpa using hno c₂ hc₂)
      obtain ⟨s, hs⟩ := enc1_ok convs n v ⟨c, hc, hct⟩
      obtain ⟨q, hq, hqbad⟩ := h
      rcases List.mem_cons.mp hq with rfl | hq₂
      · exact absurd (hqbad c hc) (by simp [hct])
      · obtain ⟨ty, hty⟩ := ih ⟨q, hq₂, hqbad⟩
        exact ⟨ty, by simp [_convert_settings_to_db_format, hs, hty]⟩

lemma encN_names (convs : List DTypeConverter) (settings : List (String × PyValue))
    (l : List Setting)
    (hf : List.Forall₂ (fun p s => _convert_one_setting_to_db_format convs p.1 p.2 = Except.ok s)
      settings l) : l.map Setting.name = settings.map Prod.fst := by
  induction hf with
  | nil => rfl
  | @cons p s l₁ l₂ hps hrest ih =>
    obtain ⟨c, _, _, hsh⟩ := enc1_ok_shape convs p.1 p.2 s hps
    simp [hsh, ih]

/-! ### Merge (upsert) lemmas -/

lemma mergeSetting_fresh (store : List Setting) (s : Setting)
    (h : ∀ t ∈ store, t.name ≠ s.name) : mergeSetting store s = store ++ [s] := by
  have hany : store.any (fun t => t.name = s.name) = false := by
    rw [List.any_eq_false]
    intro t ht
    simp [h t ht]
  simp [mergeSetting, hany]

lemma foldl_merge_fresh (l : List Setting) :
    ∀ acc : List Setting,
      (l.map Setting.name).Nodup →
      (∀ s ∈ l, ∀ t ∈ acc, t.name ≠ s.name) →
      l.foldl mergeSetting acc = acc ++ l := by
  induction l with
  | nil =>
    intro acc _ _
    simp
  | cons s rest ih =>
    intro acc hnd hfresh
    simp only [List.map_cons, List.nodup_cons] at hnd
    simp only [List.foldl_cons]
    rw [mergeSetting_fresh acc s (fun t ht => hfresh s (by simp) t ht)]
    rw [ih (acc ++ [s]) hnd.2 ?_]
    · simp
    · intro q hq t ht
      rcases List.mem_append.mp ht with h₁ | h₁
      · exact hfresh q (by simp [hq]) t h₁
      · have : t = s := by simpa using h₁
        subst this
        intro heq
        exact hnd.1 (heq ▸ List.mem_map.mpr ⟨q, hq, rfl⟩)

lemma heapGet_copy_after_set (h : ConvHeap) (r : Nat) (hr : r < h.length)
    (l : List DTypeConverter) :
    heapGet (heapSet (h ++ [heapGet h r]) r l) h.length = heapGet h r := by
  unfold heapGet heapSet
  rw [List.getD_eq_getElem?_getD]
  rw [List.getElem?_set_ne (by omega)]
  rw [List.getElem?_append_right (by omega)]
  simp


/-! ### Claim theorems -/

/-- C1: `get_one` requires exactly one stored record with the requested
name: with zero matching records it fails with the not-found error, with
more than one matching record it fails with the integrity-violation
error, and whenever it succeeds the store holds exactly one record with
that name and the result is that record decoded by the converter
registry. -/
theorem C1_get_one_exactly_one (convs : List DTypeConverter) (store : List Setting)
    (setting_name : String) :
    ((store.filter (fun s => s.name = setting_name)).length = 0 →
      get_one convs store setting_name = Except.error (RepoError.notFound setting_name)) ∧
    (1 < (store.filter (fun s => s.name = setting_name)).length →
      get_one convs store setting_name =
        Except.error (RepoError.integrityViolation setting_name)) ∧
    (∀ v, get_one convs store setting_name = Except.ok v →
      ∃ s, store.filter (fun t => t.name = setting_name) = [s] ∧
        _convert_one_setting_to_python_type convs s = Except.ok v) := by
  refine ⟨?_, ?_, ?_⟩
  · intro h
    rw [List.length_eq_zero] at h
    simp [get_one, h, scalars_one]
  · intro h
    cases hf : store.filter (fun s => s.name = setting_name) with
    | nil =>
      rw [hf] at h
      simp at h
    | cons a rest =>
      cases rest with
      | nil =>
        rw [hf] at h
        simp at h
      | cons b rest₂ => simp [get_one, hf, scalars_one]
  · intro v hv
    simp only [get_one] at hv
    cases hf : store.filter (fun s => s.name = setting_name) with
    | nil =>
      rw [hf] at hv
      simp [scalars_one] at hv
    | cons a rest =>
      cases rest with
      | nil =>
        rw [hf] at hv
        simp only [scalars_one] at hv
        exact ⟨a, rfl, hv⟩
      | cons b rest₂ =>
        rw [hf] at hv
        simp [scalars_one] at hv

/-- Witness for C1 at concrete inputs: the empty store gives the
not-found error, a store with two records named a gives the
integrity-violation error, and a store with exactly one record named a
yields that record and its decoded value. -/
theorem C1_get_one_exactly_one_witness :
    get_one [intConverter] [] "a" = Except.error (RepoError.notFound "a") ∧
    get_one [intConverter] [Setting.mk "a" "int" "1", Setting.mk "a" "int" "2"] "a" =
      Except.error (RepoError.integrityViolation "a") ∧
    (∃ s, [Setting.mk "a" "int" "5"].filter (fun t => t.name = "a") = [s] ∧
      _convert_one_setting_to_python_type [intConverter] s = Except.ok (intValue "5")) :=
  ⟨(C1_get_one_exactly_one [intConverter] [] "a").1 (by decide),
   (C1_get_one_exactly_one [intConverter]
      [Setting.mk "a" "int" "1", Setting.mk "a" "int" "2"] "a").2.1 (by decide),
   (C1_get_one_exactly_one [intConverter] [Setting.mk "a" "int" "5"] "a").2.2
      (intValue "5") (by decide)⟩

/-- C5: encoding a value chooses the first converter in registration
order whose declared native type the value is an instance of (the test
is the polymorphic is-instance test, so a subtype value matches a
converter for a supertype, and converters registered after the first
match — matching or not — are ignored); when no registered converter
matches, encoding fails with the converter-not-found error carrying the
runtime class of the value. -/
theorem C5_encode_first_instance_match (pre post convs : List DTypeConverter)
    (c : DTypeConverter) (setting_name : String) (v : PyValue) :
    ((∀ c₂ ∈ pre, isInstance v c₂.PYTHON_TYPE = false) → isInstance v c.PYTHON_TYPE = true →
      _convert_one_setting_to_db_format (pre ++ c :: post) setting_name v =
        Except.ok (Setting.mk setting_name c.TYPE_NAME (c.to_db_format v))) ∧
    ((∀ c₂ ∈ convs, isInstance v c₂.PYTHON_TYPE = false) →
      _convert_one_setting_to_db_format convs setting_name v =
        Except.error (RepoError.converterNotFoundType v.classId)) :=
  ⟨fun hpre hc => enc1_select pre post c setting_name v hpre hc,
   fun h => enc1_not_found convs setting_name v h⟩

/-- Witness for C5: a boolean value (subclass of the integer class) is
encoded by the converter registered for the integer class; with two
converters both matching an integer value the first-registered converter
encodes it; with only the string converter registered a boolean value
fails with the converter-not-found error carrying the boolean class. -/
theorem C5_encode_first_instance_match_witness :
    _convert_one_setting_to_db_format ([] ++ intConverter :: []) "flag" boolValue =
      Except.ok (Setting.mk "flag" "int" "True") ∧
    _convert_one_setting_to_db_format ([] ++ intConverter :: [intConverter₂]) "n" (intValue "7") =
      Except.ok (Setting.mk "n" "int" "7") ∧
    _convert_one_setting_to_db_format [strConverter] "flag" boolValue =
      Except.error (RepoError.converterNotFoundType boolClassId) :=
  ⟨(C5_encode_first_instance_match [] [] [strConverter] intConverter "flag" boolValue).1
      (by decide) (by decide),
   (C5_encode_first_instance_match [] [intConverter₂] [strConverter] intConverter "n"
      (intValue "7")).1 (by decide) (by decide),
   (C5_encode_first_instance_match [] [] [strConverter] intConverter "flag" boolValue).2
      (by decide)⟩

/-- C6: decoding a stored record chooses the first converter in
registration order whose storage tag equals the record tag (converters
registered after the first match are ignored); when no registered
converter has the tag, decoding fails with the converter-not-found error
carrying the unmatched tag. -/
theorem C6_decode_first_tag_match (pre post convs : List DTypeConverter)
    (c : DTypeConverter) (s : Setting) :
    ((∀ c₂ ∈ pre, c₂.TYPE_NAME ≠ s.type) → c.TYPE_NAME = s.type →
      _convert_one_setting_to_python_type (pre ++ c :: post) s =
        Except.ok (c.to_python_type s.value)) ∧
    ((∀ c₂ ∈ convs, c₂.TYPE_NAME ≠ s.type) →
      _convert_one_setting_to_python_type convs s =
        Except.error (RepoError.converterNotFoundTag s.type)) :=
  ⟨fun hpre hc => dec1_select pre post c s hpre hc,
   fun h => dec1_not_found convs s h⟩

/-- Witness for C6: with two converters registered for the int tag, the
first-registered converter decodes the record; with only the string
converter registered, a record tagged int fails with the
converter-not-found error carrying the tag int. -/
theorem C6_decode_first_tag_match_witness :
    _convert_one_setting_to_python_type ([] ++ intConverter :: [intShadowConverter])
      (Setting.mk "a" "int" "5") = Except.ok (intValue "5") ∧
    _convert_one_setting_to_python_type [strConverter] (Setting.mk "a" "int" "5") =
      Except.error (RepoError.converterNotFoundTag "int") :=
  ⟨(C6_decode_first_tag_match [] [intShadowConverter] [strConverter] intConverter
      (Setting.mk "a" "int" "5")).1 (by decide) (by decide),
   (C6_decode_first_tag_match [] [intShadowConverter] [strConverter] intConverter
      (Setting.mk "a" "int" "5")).2 (by decide)⟩

/-- C9: every write operation performs all native-to-storage conversion
before acquiring a session, so when conversion fails the session-event
trace is empty — no session is acquired, nothing merged, nothing
committed — and the operation returns the conversion error, leaving the
store untouched. -/
theorem C9_conversion_before_session (convs : List DTypeConverter) (store : List Setting)
    (setting_name : String) (v : PyValue) (settings : List (String × PyValue)) (e : RepoError) :
    (_convert_one_setting_to_db_format convs setting_name v = Except.error e →
      set_one convs store setting_name v = ([], Except.error e)) ∧
    (_convert_settings_to_db_format convs settings = Except.error e →
      set_many convs store settings = ([], Except.error e)) ∧
    (_convert_settings_to_db_format convs settings = Except.error e →
      set_all convs store settings = ([], Except.error e)) :=
  ⟨fun h => by simp [set_one, h],
   fun h => by simp [set_many, h],
   fun h => by simp [set_all, h]⟩

/-- Witness for C9: with only the string converter registered, writing
an integer value through any of the three write operations returns the
conversion error with an empty session trace. -/
theorem C9_conversion_before_session_witness :
    set_one [strConverter] [Setting.mk "b" "str" "x"] "a" (intValue "5") =
      ([], Except.error (RepoError.converterNotFoundType intClassId)) ∧
    set_many [strConverter] [Setting.mk "b" "str" "x"] [("a", intValue "5")] =
      ([], Except.error (RepoError.converterNotFoundType intClassId)) ∧
    set_all [strConverter] [Setting.mk "b" "str" "x"] [("a", intValue "5")] =
      ([], Except.error (RepoError.converterNotFoundType intClassId)) :=
  ⟨(C9_conversion_before_session [strConverter] [Setting.mk "b" "str" "x"] "a" (intValue "5")
      [("a", intValue "5")] (RepoError.converterNotFoundType intClassId)).1 (by decide),
   (C9_conversion_before_session [strConverter] [Setting.mk "b" "str" "x"] "a" (intValue "5")
      [("a", intValue "5")] (RepoError.converterNotFoundType intClassId)).2.1 (by decide),
   (C9_conversion_before_session [strConverter] [Setting.mk "b" "str" "x"] "a" (intValue "5")
      [("a", intValue "5")] (RepoError.converterNotFoundType intClassId)).2.2 (by decide)⟩

/-- C4: a single entry with no matching registered converter aborts the
whole batch operation with the converter-not-found error: `set_many`
returns it with an empty session trace — nothing merged, nothing
committed — and `get_all` and `get_many` return it instead of any
partially converted dictionary. -/
theorem C4_batch_all_or_nothing (convs : List DTypeConverter) (store : List Setting)
    (setting_names : List String) (settings : List (String × PyValue)) :
    ((∃ p ∈ settings, ∀ c ∈ convs, isInstance p.2 c.PYTHON_TYPE = false) →
      ∃ ty, set_many convs store settings =
        ([], Except.error (RepoError.converterNotFoundType ty))) ∧
    ((∃ s ∈ store, ∀ c ∈ convs, c.TYPE_NAME ≠ s.type) →
      ∃ tag, get_all convs store = Except.error (RepoError.converterNotFoundTag tag)) ∧
    ((∃ s ∈ store.filter (fun s => setting_names.contains s.name),
        ∀ c ∈ convs, c.TYPE_NAME ≠ s.type) →
      ∃ tag, get_many convs store setting_names =
        Except.error (RepoError.converterNotFoundTag tag)) := by
  refine ⟨?_, ?_, ?_⟩
  · intro h
    obtain ⟨ty, hty⟩ := encN_error convs settings h
    exact ⟨ty, by simp [set_many, hty]⟩
  · intro h
    obtain ⟨tag, htag⟩ := convertLoop_error convs store [] h
    exact ⟨tag, htag⟩
  · intro h
    obtain ⟨tag, htag⟩ :=
      convertLoop_error convs (store.filter (fun s => setting_names.contains s.name)) [] h
    exact ⟨tag, htag⟩

/-- Witness for C4: a `set_many` of five entries whose third entry has
no converter commits none of the five (empty trace, error result); a
store row with an unregistered tag makes `get_all` and `get_many` fail
wholesale. -/
theorem C4_batch_all_or_nothing_witness :
    (∃ ty, set_many [strConverter] [Setting.mk "z" "str" "0"]
        [("a", strValue "1"), ("b", strValue "2"), ("c", intValue "3"),
         ("d", strValue "4"), ("e", strValue "5")] =
      ([], Except.error (RepoError.converterNotFoundType ty))) ∧
    (∃ tag, get_all [strConverter] [Setting.mk "a" "int" "1"] =
      Except.error (RepoError.converterNotFoundTag tag)) ∧
    (∃ tag, get_many [strConverter] [Setting.mk "a" "int" "1"] ["a"] =
      Except.error (RepoError.converterNotFoundTag tag)) :=
  ⟨(C4_batch_all_or_nothing [strConverter] [Setting.mk "z" "str" "0"] ["a"]
      [("a", strValue "1"), ("b", strValue "2"), ("c", intValue "3"),
       ("d", strValue "4"), ("e", strValue "5")]).1 (by decide),
   (C4_batch_all_or_nothing [strConverter] [Setting.mk "a" "int" "1"] ["a"] []).2.1 (by decide),
   (C4_batch_all_or_nothing [strConverter] [Setting.mk "a" "int" "1"] ["a"] []).2.2 (by decide)⟩

/-- C3: when every stored record carries a registered tag, `get_all`
succeeds and returns a dictionary with an entry for the name of every
record in the table, every entry being the decoded value of a stored
record with that name. -/
theorem C3_get_all_covers (convs : List DTypeConverter) (store : List Setting)
    (h : ∀ s ∈ store, ∃ c ∈ convs, c.TYPE_NAME = s.type) :
    ∃ d, get_all convs store = Except.ok d ∧
      (∀ s ∈ store, ∃ w, (s.name, w) ∈ d) ∧
      (∀ k w, (k, w) ∈ d → ∃ s ∈ store, s.name = k ∧
        _convert_one_setting_to_python_type convs s = Except.ok w) := by
  obtain ⟨d, hd, hmem, hlook, hnd⟩ := convertLoop_ok convs store [] h
  have hndd : (d.map Prod.fst).Nodup := hnd (by simp)
  refine ⟨d, hd, ?_, ?_⟩
  · intro s hs
    exact (hmem s.name).mpr (Or.inr ⟨s, hs, rfl⟩)
  · intro k w hw
    have hl : dictLookup d k = some w := mem_dictLookup d k w hndd hw
    rw [hlook k] at hl
    cases hfl : (store.filter (fun s => s.name = k)).getLast? with
    | none =>
      rw [hfl] at hl
      exact absurd hl (by simp [dictLookup])
    | some s =>
      rw [hfl] at hl
      have hsf : s ∈ store.filter (fun s => s.name = k) := getLast?_mem_list _ s hfl
      have hmf := List.mem_filter.mp hsf
      exact ⟨s, hmf.1, by simpa using hmf.2, toOption_eq_some _ w hl⟩

/-- Witness for C3 at a concrete two-record store with both tags
registered. -/
theorem C3_get_all_covers_witness :
    ∃ d, get_all [intConverter, strConverter]
        [Setting.mk "a" "int" "1", Setting.mk "b" "str" "x"] = Except.ok d ∧
      (∀ s ∈ [Setting.mk "a" "int" "1", Setting.mk "b" "str" "x"], ∃ w, (s.name, w) ∈ d) ∧
      (∀ k w, (k, w) ∈ d →
        ∃ s ∈ [Setting.mk "a" "int" "1", Setting.mk "b" "str" "x"], s.name = k ∧
          _convert_one_setting_to_python_type [intConverter, strConverter] s = Except.ok w) :=
  C3_get_all_covers [intConverter, strConverter]
    [Setting.mk "a" "int" "1", Setting.mk "b" "str" "x"] (by decide)

/-- C7: `get_many` succeeds and returns a dictionary whose keys are
exactly the requested names that exist in the store, each mapped to the
decoded value of a stored record with that name; requested names with no
stored record are silently omitted, raising no error. -/
theorem C7_get_many_omits_missing (convs : List DTypeConverter) (store : List Setting)
    (setting_names : List String)
    (h : ∀ s ∈ store.filter (fun s => setting_names.contains s.name),
      ∃ c ∈ convs, c.TYPE_NAME = s.type) :
    ∃ d, get_many convs store setting_names = Except.ok d ∧
      (∀ k, (∃ w, (k, w) ∈ d) ↔
        (setting_names.contains k = true ∧ ∃ s ∈ store, s.name = k)) ∧
      (∀ k w, (k, w) ∈ d → ∃ s ∈ store, s.name = k ∧
        _convert_one_setting_to_python_type convs s = Except.ok w) := by
  obtain ⟨d, hd, hmem, hlook, hnd⟩ :=
    convertLoop_ok convs (store.filter (fun s => setting_names.contains s.name)) [] h
  have hndd : (d.map Prod.fst).Nodup := hnd (by simp)
  refine ⟨d, hd, ?_, ?_⟩
  · intro k
    rw [hmem k]
    constructor
    · rintro (⟨w, hw⟩ | ⟨s, hs, rfl⟩)
      · exact absurd hw (List.not_mem_nil (k, w))
      · have hmf := List.mem_filter.mp hs
        exact ⟨hmf.2, s, hmf.1, rfl⟩
    · rintro ⟨hc, s, hs, rfl⟩
      exact Or.inr ⟨s, List.mem_filter.mpr ⟨hs, hc⟩, rfl⟩
  · intro k w hw
    have hl : dictLookup d k = some w := mem_dictLookup d k w hndd hw
    rw [hlook k] at hl
    cases hfl :
        ((store.filter (fun s => setting_names.contains s.name)).filter
          (fun s => s.name = k)).getLast? with
    | none =>
      rw [hfl] at hl
      exact absurd hl (by simp [dictLookup])
    | some s =>
      rw [hfl] at hl
      have hsf := getLast?_mem_list _ s hfl
      have hmf := List.mem_filter.mp (List.mem_filter.mp hsf).1
      exact ⟨s, hmf.1, by simpa using (List.mem_filter.mp hsf).2,
        toOption_eq_some _ w hl⟩

/-- Witness for C7, matching the example of the specification: after
only the name a exists, requesting a and missing returns a dictionary
holding exactly a, with no error. -/
theorem C7_get_many_omits_missing_witness :
    get_many [intConverter] [Setting.mk "a" "int" "1"] ["a", "missing"] =
      Except.ok [("a", intValue "1")] ∧
    (∃ d, get_many [intConverter] [Setting.mk "a" "int" "1"] ["a", "missing"] =
        Except.ok d ∧
      (∀ k, (∃ w, (k, w) ∈ d) ↔
        ((["a", "missing"] : List String).contains k = true ∧
          ∃ s ∈ [Setting.mk "a" "int" "1"], s.name = k)) ∧
      (∀ k w, (k, w) ∈ d → ∃ s ∈ [Setting.mk "a" "int" "1"], s.name = k ∧
        _convert_one_setting_to_python_type [intConverter] s = Except.ok w)) :=
  ⟨by decide,
   C7_get_many_omits_missing [intConverter] [Setting.mk "a" "int" "1"] ["a", "missing"]
     (by decide)⟩

/-- C10: duplicate names among the records fed to batch decoding raise
no error: the resulting dictionary has no duplicate keys, and the entry
for the duplicated name holds the decoded value of the last record with
that name in iteration order (later records silently overwrite earlier
ones). -/
theorem C10_batch_decode_last_wins (convs : List DTypeConverter) (settings : List Setting)
    (setting_name : String)
    (hreg : ∀ s ∈ settings, ∃ c ∈ convs, c.TYPE_NAME = s.type)
    (hdup : 1 < (settings.filter (fun s => s.name = setting_name)).length) :
    ∃ d last, _convert_settings_to_python_types convs settings = Except.ok d ∧
      (d.map Prod.fst).Nodup ∧
      (settings.filter (fun s => s.name = setting_name)).getLast? = some last ∧
      ∃ w, _convert_one_setting_to_python_type convs last = Except.ok w ∧
        dictLookup d setting_name = some w := by
  obtain ⟨d, hd, hmem, hlook, hnd⟩ := convertLoop_ok convs settings [] hreg
  have hne : settings.filter (fun s => s.name = setting_name) ≠ [] := by
    intro hq
    rw [hq] at hdup
    simp at hdup
  obtain ⟨last, hlast⟩ :
      ∃ a, (settings.filter (fun s => s.name = setting_name)).getLast? = some a := by
    cases hg : (settings.filter (fun s => s.name = setting_name)).getLast? with
    | some a => exact ⟨a, rfl⟩
    | none => exact absurd (List.getLast?_eq_none_iff.mp hg) hne
  have hlmem : last ∈ settings.filter (fun s => s.name = setting_name) :=
    getLast?_mem_list _ last hlast
  have hlin := List.mem_filter.mp hlmem
  obtain ⟨w, hw⟩ := dec1_ok convs last (hreg last hlin.1)
  refine ⟨d, last, hd, hnd (by simp), hlast, w, hw, ?_⟩
  rw [hlook setting_name, hlast]
  simp [hw, Except.toOption]

/-- Witness for C10: two records both named a, decodable, batch-decode
with no error into a dictionary whose entry for a is the decoded value
of the second record. -/
theorem C10_batch_decode_last_wins_witness :
    _convert_settings_to_python_types [intConverter]
      [Setting.mk "a" "int" "1", Setting.mk "a" "int" "2"] =
      Except.ok [("a", intValue "2")] ∧
    (∃ d last, _convert_settings_to_python_types [intConverter]
        [Setting.mk "a" "int" "1", Setting.mk "a" "int" "2"] = Except.ok d ∧
      (d.map Prod.fst).Nodup ∧
      ([Setting.mk "a" "int" "1", Setting.mk "a" "int" "2"].filter
        (fun s => s.name = "a")).getLast? = some last ∧
      ∃ w, _convert_one_setting_to_python_type [intConverter] last = Except.ok w ∧
        dictLookup d "a" = some w) :=
  ⟨by decide,
   C10_batch_decode_last_wins [intConverter]
     [Setting.mk "a" "int" "1", Setting.mk "a" "int" "2"] "a" (by decide) (by decide)⟩

/-- C2: `set_all` is a destructive full replace: for any prior store
state, a successful `set_all` leaves the store holding exactly the
encodings of the entries of the input map, in map order — the same final
store for any two prior states — and its session trace deletes every
existing record first, then merges each encoded record, then commits
exactly once. -/
theorem C2_set_all_full_replace (convs : List DTypeConverter)
    (store store₂ : List Setting) (settings : List (String × PyValue))
    (hconv : ∀ p ∈ settings, ∃ c ∈ convs, isInstance p.2 c.PYTHON_TYPE = true)
    (hnd : (settings.map Prod.fst).Nodup) :
    ∃ final,
      (set_all convs store settings).2 = Except.ok final ∧
      (set_all convs store₂ settings).2 = Except.ok final ∧
      final.map Setting.name = settings.map Prod.fst ∧
      List.Forall₂ (fun p s => _convert_one_setting_to_db_format convs p.1 p.2 = Except.ok s)
        settings final ∧
      (set_all convs store settings).1 =
        Event.sessionAcquired :: Event.deletedAll ::
          (final.map Event.merged ++ [Event.committed, Event.sessionReleased]) := by
  obtain ⟨l, hl, hf⟩ := encN_ok convs settings hconv
  have hnames : l.map Setting.name = settings.map Prod.fst := encN_names convs settings l hf
  have hlnd : (l.map Setting.name).Nodup := by
    rw [hnames]
    exact hnd
  have hfold : l.foldl mergeSetting [] = l := by
    have := foldl_merge_fresh l [] hlnd (fun s _ t ht => absurd ht (List.not_mem_nil t))
    simpa using this
  refine ⟨l, ?_, ?_, hnames, hf, ?_⟩
  · simp [set_all, hl, hfold]
  · simp [set_all, hl, hfold]
  · simp [set_all, hl]

/-- Witness for C2, matching the example of the specification: a
full-set write of a alone on a store holding a and b leaves the store
holding only a, and the same final store results from the empty prior
store. -/
theorem C2_set_all_full_replace_witness :
    (set_all [intConverter] [Setting.mk "a" "int" "1", Setting.mk "b" "int" "2"]
      [("a", intValue "1")]).2 = Except.ok [Setting.mk "a" "int" "1"] ∧
    (∃ final,
      (set_all [intConverter] [Setting.mk "a" "int" "1", Setting.mk "b" "int" "2"]
        [("a", intValue "1")]).2 = Except.ok final ∧
      (set_all [intConverter] [] [("a", intValue "1")]).2 = Except.ok final ∧
      final.map Setting.name = [("a", intValue "1")].map Prod.fst ∧
      List.Forall₂ (fun p s =>
          _convert_one_setting_to_db_format [intConverter] p.1 p.2 = Except.ok s)
        [("a", intValue "1")] final ∧
      (set_all [intConverter] [Setting.mk "a" "int" "1", Setting.mk "b" "int" "2"]
        [("a", intValue "1")]).1 =
        Event.sessionAcquired :: Event.deletedAll ::
          (final.map Event.merged ++ [Event.committed, Event.sessionReleased])) :=
  ⟨by decide,
   C2_set_all_full_replace [intConverter]
     [Setting.mk "a" "int" "1", Setting.mk "b" "int" "2"] [] [("a", intValue "1")]
     (by decide) (by decide)⟩

/-- C8: `set_dtype_converters` stores a defensive copy of the supplied
list object, so after the call the active converter list equals the
contents the caller-held list had at call time, and any later in-place
mutation of the caller-held list object leaves both the active converter
list and the lookup behavior in both directions (decode by tag, encode
by is-instance) unchanged. -/
theorem C8_set_converters_defensive_copy (st : RepoState) (r : Nat)
    (hr : r < st.heap.length) (l₂ : List DTypeConverter) :
    activeConverters (set_dtype_converters st r) = heapGet st.heap r ∧
    activeConverters (mutateList (set_dtype_converters st r) r l₂) = heapGet st.heap r ∧
    (∀ s, _convert_one_setting_to_python_type
        (activeConverters (mutateList (set_dtype_converters st r) r l₂)) s =
      _convert_one_setting_to_python_type (heapGet st.heap r) s) ∧
    (∀ n v, _convert_one_setting_to_db_format
        (activeConverters (mutateList (set_dtype_converters st r) r l₂)) n v =
      _convert_one_setting_to_db_format (heapGet st.heap r) n v) := by
  have h₂ : activeConverters (mutateList (set_dtype_converters st r) r l₂) =
      heapGet st.heap r := by
    show heapGet (heapSet (st.heap ++ [heapGet st.heap r]) r l₂) st.heap.length =
      heapGet st.heap r
    exact heapGet_copy_after_set st.heap r hr l₂
  have h₁ : activeConverters (set_dtype_converters st r) = heapGet st.heap r := by
    show heapGet (st.heap ++ [heapGet st.heap r]) st.heap.length = heapGet st.heap r
    unfold heapGet
    rw [List.getD_eq_getElem?_getD, List.getElem?_append_right (Nat.le_refl _)]
    simp
  exact ⟨h₁, h₂, fun s => by rw [h₂], fun n v => by rw [h₂]⟩

/-- Witness for C8: a one-cell heap holding the string converter; after
registration the caller overwrites their list object with the int
converter, and the active converter list is still the string converter
with unchanged decode and encode behavior. -/
theorem C8_set_converters_defensive_copy_witness :
    activeConverters (set_dtype_converters (RepoState.mk [[strConverter]] 0) 0) =
      [strConverter] ∧
    activeConverters (mutateList
      (set_dtype_converters (RepoState.mk [[strConverter]] 0) 0) 0 [intConverter]) =
      [strConverter] ∧
    (∀ s, _convert_one_setting_to_python_type
        (activeConverters (mutateList
          (set_dtype_converters (RepoState.mk [[strConverter]] 0) 0) 0 [intConverter])) s =
      _convert_one_setting_to_python_type [strConverter] s) ∧
    (∀ n v, _convert_one_setting_to_db_format
        (activeConverters (mutateList
          (set_dtype_converters (RepoState.mk [[strConverter]] 0) 0) 0 [intConverter])) n v =
      _convert_one_setting_to_db_format [strConverter] n v) :=
  C8_set_converters_defensive_copy (RepoState.mk [[strConverter]] 0) 0 (by decide)
    [intConverter]
